import Mathlib

/-!
Shallow embedding of the register access and value-encoding layer of
primitive-modbus-utility (`src/main.js`), together with theorems settling
the frozen claims about it.

JavaScript numbers are modelled as `Option Int`: `none` stands for `NaN`,
`some n` for an integer value (all values arising here are integral).
Bitwise operators (`&`, `>>`, `<<`, `|`) in JS first convert their operands
with ToInt32; on the integer ranges used here this is made explicit below.
-/

namespace PMU

/-- A JavaScript number as used by this program: `none` is `NaN`. -/
abbrev JSNum := Option Int

/-- JS `String.prototype.toUpperCase` restricted to ASCII, which is all the
program ever passes to it (hex digits, "0x"/"0X", mode names). -/
def jsToUpper (s : String) : String :=
  String.mk (s.data.map Char.toUpper)

/-- JS `String.prototype.toLowerCase` restricted to ASCII (function codes). -/
def jsToLower (s : String) : String :=
  String.mk (s.data.map Char.toLower)

/-- JS `String.prototype.startsWith`. -/
def jsStartsWith (s pre : String) : Bool :=
  pre.data.isPrefixOf s.data

/-- Value of a character as a digit in the given base, as JS `parseInt`
accepts digits: `0`-`9`, then letters of either case up to the base. -/
def digitVal (base : Nat) (c : Char) : Option Nat :=
  let v : Option Nat :=
    if '0' ≤ c ∧ c ≤ '9' then some (c.toNat - '0'.toNat)
    else if 'a' ≤ c ∧ c ≤ 'z' then some (c.toNat - 'a'.toNat + 10)
    else if 'A' ≤ c ∧ c ≤ 'Z' then some (c.toNat - 'A'.toNat + 10)
    else none
  match v with
  | some d => if d < base then some d else none
  | none => none

/-- Accumulate the longest leading run of valid digits; `none` when no valid
digit has been seen yet (JS `parseInt` yields `NaN` in that case). -/
def takeDigitsAux (base : Nat) (acc : Option Nat) : List Char → Option Nat
  | [] => acc
  | c :: rest =>
    match digitVal base c with
    | some d => takeDigitsAux base (some (acc.getD 0 * base + d)) rest
    | none => acc

/-- The numeric value of the longest leading digit run, `none` if empty. -/
def parseDigits (base : Nat) (cs : List Char) : Option Nat :=
  takeDigitsAux base none cs

/-- JS `parseInt(s, base)`: skip leading whitespace, optional sign, for base
16 an optional "0x"/"0X", then the longest run of valid digits; `NaN`
(`none`) when that run is empty. Trailing characters are ignored. -/
def jsParseInt (base : Nat) (s : String) : JSNum :=
  let cs := s.data.dropWhile (fun c => c == ' ' || c == '\t' || c == '\n' || c == '\r')
  let signBody : Int × List Char :=
    match cs with
    | '-' :: rest => (-1, rest)
    | '+' :: rest => (1, rest)
    | _ => (1, cs)
  let body :=
    if base = 16 then
      match signBody.2 with
      | '0' :: 'x' :: rest => rest
      | '0' :: 'X' :: rest => rest
      | _ => signBody.2
    else signBody.2
  match parseDigits base body with
  | none => none
  | some n => some (signBody.1 * (n : Int))

/-- `parseValue` from src/main.js lines 57-67: binary for a lowercase `b`
head, hex for a "0x"/"0X" head, decimal otherwise. -/
def parseValue (val : String) : JSNum :=
  if jsStartsWith val "b" then
    jsParseInt 2 (String.mk (val.data.drop 1))
  else if jsStartsWith val "0x" || jsStartsWith val "0X" then
    jsParseInt 16 val
  else
    jsParseInt 10 val

/-- JS ToInt32: `NaN` becomes 0, integers are reduced mod 2^32 into
[-2^31, 2^31). -/
def jsToInt32 (value : JSNum) : Int :=
  match value with
  | none => 0
  | some n =>
    let m := n % 4294967296
    if m < 2147483648 then m else m - 4294967296

/-- `convertEndianness` from src/main.js lines 73-80. For LITTLE:
`(value & 0xff) << 8 | ((value >> 8) & 0xff)` on the ToInt32 image of the
value; `% 256` is `& 0xff` (low byte, always non-negative), `/ 256` is the
arithmetic shift `>> 8` (floor division, and Int `/` by a positive literal
is floor division), and the recombination adds disjoint bit ranges. For any
other mode string (BIG): identity, NaN included. -/
def convertEndianness (endianness : String) (value : JSNum) : JSNum :=
  if jsToUpper endianness = "LITTLE" then
    let v := jsToInt32 value
    let lowerByte := v % 256
    let upperByte := (v / 256) % 256
    some (lowerByte * 256 + upperByte)
  else
    value

/-- JS `String.prototype.padStart(n, c)`. -/
def padStart (s : String) (n : Nat) (c : Char) : String :=
  String.mk (List.replicate (n - s.length) c) ++ s

/-- JS `num.toString(base)` for an integral number: `"NaN"` for NaN, a
leading `-` for negatives, lowercase digits (as `Nat.toDigits` produces). -/
def jsNumToStringBase (base : Nat) (num : JSNum) : String :=
  match num with
  | none => "NaN"
  | some v =>
    if v < 0 then "-" ++ String.mk (Nat.toDigits base v.natAbs)
    else String.mk (Nat.toDigits base v.toNat)

/-- JS `${num}` (decimal rendering in a template literal). -/
def jsNumToString (num : JSNum) : String :=
  match num with
  | none => "NaN"
  | some v => toString v

/-- `toHex` from src/main.js lines 85-87:
`"0x" + num.toString(16).padStart(4, "0").toUpperCase()`. -/
def toHex (num : JSNum) : String :=
  "0x" ++ jsToUpper (padStart (jsNumToStringBase 16 num) 4 '0')

/-- The effect of `replace(/(.{4})/g, "$1 ")`: every complete 4-character
chunk, scanning left to right, gets a space appended; a short tail is kept
unchanged. -/
def chunkEvery4 : List Char → List Char
  | c1 :: c2 :: c3 :: c4 :: rest => c1 :: c2 :: c3 :: c4 :: ' ' :: chunkEvery4 rest
  | rest => rest

/-- `toBinaryWithSpaces` from src/main.js lines 92-95. -/
def toBinaryWithSpaces (num : JSNum) : String :=
  let binStr := padStart (jsNumToStringBase 2 num) 16 '0'
  String.mk (chunkEvery4 binStr.data)

/-- JS `String.prototype.replace` with a plain-string pattern replaces only
the first occurrence. -/
def replaceFirstAux (pat repl : List Char) : List Char → List Char
  | [] => []
  | c :: rest =>
    if pat.isPrefixOf (c :: rest) then repl ++ (c :: rest).drop pat.length
    else c :: replaceFirstAux pat repl rest

/-- First-occurrence-only string replacement (JS `replace` with a string). -/
def replaceFirst (s pat repl : String) : String :=
  String.mk (replaceFirstAux pat.data repl.data s.data)

/-- `normalizeAddress` from src/main.js lines 100-102:
`address.toUpperCase().replace("0X", "0x")`. -/
def normalizeAddress (address : String) : String :=
  replaceFirst (jsToUpper address) "0X" "0x"

/-- The four name tables from register-names.json; a JS value of `false`
(per-class table disabled) is `none`. Keys map to symbolic names. -/
structure NameTables where
  COIL_NAMES : Option (List (String × String))
  DISCRETE_INPUT_NAMES : Option (List (String × String))
  HOLDING_REGISTER_NAMES : Option (List (String × String))
  INPUT_REGISTER_NAMES : Option (List (String × String))

/-- `TABLE && TABLE[key]` followed by `return ""`: a disabled table, a
missing key, and a falsy (empty) name all come out as `""`. -/
def lookupName (table : Option (List (String × String))) (addressHex : String) : String :=
  match table with
  | none => ""
  | some t => (t.lookup addressHex).getD ""

/-- `getRegisterName` from src/main.js lines 107-135. -/
def getRegisterName (tables : NameTables) (functionCode : String) (addressHexRaw : String) : String :=
  let addressHex := normalizeAddress addressHexRaw
  match functionCode with
  | "0x01" => lookupName tables.COIL_NAMES addressHex
  | "0x02" => lookupName tables.DISCRETE_INPUT_NAMES addressHex
  | "0x03" => lookupName tables.HOLDING_REGISTER_NAMES addressHex
  | "0x04" => lookupName tables.INPUT_REGISTER_NAMES addressHex
  | _ => ""

/-- A name table set with every per-class table disabled. -/
def emptyTables : NameTables := ⟨none, none, none, none⟩

/-- A display row for a coil / discrete-input read (src/main.js 241-246). -/
structure BoolRow where
  reg : String
  addr : String
  name : String
  value : Bool
deriving DecidableEq, Repr

/-- A display row for a holding / input register read (src/main.js 262-269). -/
structure RegRow where
  reg : String
  addr : String
  name : String
  decimal : JSNum
  hex : String
  binary : String
deriving DecidableEq, Repr

/-- The table printed by a read: boolean rows or register rows. -/
inductive ReadResult where
  | boolRows (rows : List BoolRow)
  | regRows (rows : List RegRow)
deriving DecidableEq, Repr

/-- How a read can fail: an unsupported function code (src/main.js 220-222),
or the transport collaborator throwing, caught at src/main.js 273-275. -/
inductive ReadErr where
  | unsupportedOperation
  | transportError (msg : String)
deriving DecidableEq, Repr

/-- The transport collaborator (the modbus-serial client): each read
primitive receives the (possibly NaN) address and quantity the program
passes and either returns a value list or throws with a message. -/
structure Transport where
  readCoils : JSNum → JSNum → Except String (List Bool)
  readDiscreteInputs : JSNum → JSNum → Except String (List Bool)
  readHoldingRegisters : JSNum → JSNum → Except String (List Nat)
  readInputRegisters : JSNum → JSNum → Except String (List Nat)

/-- JS `arr.slice(0, endIdx)`: NaN end is 0 (empty), a negative end counts
from the end, otherwise take up to `endIdx` elements. -/
def jsSliceTo (l : List α) (endIdx : JSNum) : List α :=
  match endIdx with
  | none => []
  | some n => if n < 0 then l.take ((l.length : Int) + n).toNat else l.take n.toNat

/-- JS `+` on numbers: NaN propagates. -/
def jsAdd (a b : JSNum) : JSNum :=
  match a, b with
  | some x, some y => some (x + y)
  | _, _ => none

/-- Indexed row construction as `Array.prototype` `map`/`forEach` provide:
the callback sees each element with its index. -/
def mapWithIndexFrom (f : Nat → α → β) (index : Nat) : List α → List β
  | [] => []
  | a :: rest => f index a :: mapWithIndexFrom f (index + 1) rest

/-- Rows for coils / discrete inputs, src/main.js lines 231-248: the data is
first cut to the requested quantity with `slice(0, quantity)`. -/
def buildBoolRows (tables : NameTables) (functionCode : String) (startAddress quantity : JSNum)
    (data : List Bool) : List BoolRow :=
  let bits := jsSliceTo data quantity
  mapWithIndexFrom (fun index boolVal =>
    let addressDec := jsAdd startAddress (some (index : Int))
    let addressHex := toHex addressDec
    let name := getRegisterName tables functionCode addressHex
    let pref := if functionCode = "0x01" then "C" else "DI"
    let registerID := pref ++ jsNumToString (jsAdd addressDec (some 1))
    { reg := registerID, addr := addressHex, name := name, value := boolVal }) 0 bits

/-- Rows for holding / input registers, src/main.js lines 250-271: the full
returned array is mapped, with no truncation to the requested quantity. -/
def buildRegRows (tables : NameTables) (endianness : String) (functionCode : String)
    (startAddress : JSNum) (data : List Nat) : List RegRow :=
  mapWithIndexFrom (fun index (rawVal : Nat) =>
    let addressDec := jsAdd startAddress (some (index : Int))
    let addressHex := toHex addressDec
    let name := getRegisterName tables functionCode addressHex
    let actualValue := convertEndianness endianness (some (rawVal : Int))
    let pref := if functionCode = "0x03" then "HR" else "IR"
    let registerID := pref ++ jsNumToString (jsAdd addressDec (some 1))
    { reg := registerID, addr := addressHex, name := name,
      decimal := actualValue, hex := toHex actualValue,
      binary := toBinaryWithSpaces actualValue }) 0 data

/-- `handleRead` from src/main.js lines 188-276, with the prompt replaced by
its two split tokens (an empty token is a missing one: `addrStr` defaults to
"0", `qtyStr` to the configured default quantity). The parsed address and
quantity go to the transport unchecked — a failed parse is passed on as NaN. -/
def handleRead (tables : NameTables) (endianness : String) (defaultQuantity : Nat)
    (tp : Transport) (functionCode : String) (addrStr0 qtyStr0 : String) :
    Except ReadErr ReadResult :=
  let addrStr := if addrStr0 = "" then "0" else addrStr0
  let qtyStr := if qtyStr0 = "" then toString defaultQuantity else qtyStr0
  let startAddress := parseValue addrStr
  let quantity := parseValue qtyStr
  match functionCode with
  | "0x01" =>
    match tp.readCoils startAddress quantity with
    | .error msg => .error (.transportError msg)
    | .ok data => .ok (.boolRows (buildBoolRows tables "0x01" startAddress quantity data))
  | "0x02" =>
    match tp.readDiscreteInputs startAddress quantity with
    | .error msg => .error (.transportError msg)
    | .ok data => .ok (.boolRows (buildBoolRows tables "0x02" startAddress quantity data))
  | "0x03" =>
    match tp.readHoldingRegisters startAddress quantity with
    | .error msg => .error (.transportError msg)
    | .ok data => .ok (.regRows (buildRegRows tables endianness "0x03" startAddress data))
  | "0x04" =>
    match tp.readInputRegisters startAddress quantity with
    | .error msg => .error (.transportError msg)
    | .ok data => .ok (.regRows (buildRegRows tables endianness "0x04" startAddress data))
  | _ => .error .unsupportedOperation

/-- How a write can fail: fewer than an address and one value
(src/main.js 290-293), or an unsupported function code (311-313). -/
inductive WriteErr where
  | invalidInput
  | unsupportedOperation
deriving DecidableEq, Repr

/-- The transport call a write issues (src/main.js 302 and 308), with the
exact address and value list passed to the collaborator. -/
inductive WriteCall where
  | writeCoils (addr : JSNum) (vals : List Bool)
  | writeRegisters (addr : JSNum) (vals : List JSNum)
deriving DecidableEq, Repr

/-- `handleWrite` from src/main.js lines 283-317, with the prompt replaced
by its split token list; the result records which transport primitive is
invoked and with what arguments. Values are parsed but never checked: a
coil value is sent as `val !== 0` (true for NaN), a register value goes
through `convertEndianness` and is sent as is. -/
def handleWrite (endianness : String) (functionCode : String) (parts : List String) :
    Except WriteErr WriteCall :=
  if parts.length < 2 then .error .invalidInput
  else
    let startAddress := parseValue (parts.headD "")
    let values := (parts.drop 1).map parseValue
    if functionCode = "0x0f" then
      let booleanVals := values.map (fun val => val != some 0)
      .ok (.writeCoils startAddress booleanVals)
    else if functionCode = "0x10" then
      let registerVals := values.map (convertEndianness endianness)
      .ok (.writeRegisters startAddress registerVals)
    else .error .unsupportedOperation

/-- Routing of a user-entered function code, src/main.js lines 338-365: the
input is lowercased, "quit" exits, the four read codes go to `handleRead`,
the two write codes to `handleWrite`, anything else is unrecognized. -/
inductive MainAction where
  | read (functionCode : String)
  | write (functionCode : String)
  | quit
  | unrecognized
deriving DecidableEq, Repr

/-- The dispatch performed by `mainLoop` (src/main.js 338-365). -/
def mainDispatch (input : String) : MainAction :=
  let funcCode := jsToLower input
  if funcCode = "quit" then .quit
  else
    match funcCode with
    | "0x01" | "0x02" | "0x03" | "0x04" => .read funcCode
    | "0x0f" | "0x10" => .write funcCode
    | _ => .unrecognized

/-- Number of rows a read outcome displays (an error prints no table). -/
def rowCount : Except ReadErr ReadResult → Nat
  | .ok (.boolRows rows) => rows.length
  | .ok (.regRows rows) => rows.length
  | .error _ => 0

/-- A transport whose primitives all return fixed data, for exercising the
row-building paths. -/
def constTransport (bools : List Bool) (regs : List Nat) : Transport where
  readCoils := fun _ _ => .ok bools
  readDiscreteInputs := fun _ _ => .ok bools
  readHoldingRegisters := fun _ _ => .ok regs
  readInputRegisters := fun _ _ => .ok regs

/-- A transport whose primitives all throw with the given message. -/
def errorTransport (msg : String) : Transport where
  readCoils := fun _ _ => .error msg
  readDiscreteInputs := fun _ _ => .error msg
  readHoldingRegisters := fun _ _ => .error msg
  readInputRegisters := fun _ _ => .error msg

/-- Whether a JS number is an integer in the unsigned 16-bit range. -/
def isUint16 (v : JSNum) : Bool :=
  match v with
  | none => false
  | some n => decide (0 ≤ n) && decide (n ≤ 65535)

/-- A transport whose primitives each throw their own name, identifying
which primitive a function code is dispatched to. -/
def probeTransport : Transport where
  readCoils := fun _ _ => .error "readCoils"
  readDiscreteInputs := fun _ _ => .error "readDiscreteInputs"
  readHoldingRegisters := fun _ _ => .error "readHoldingRegisters"
  readInputRegisters := fun _ _ => .error "readInputRegisters"

theorem convertEndianness_big_eq (v : JSNum) : convertEndianness "BIG" v = v := by
  unfold convertEndianness
  rw [if_neg (by decide)]

theorem convertEndianness_little_eq (v : JSNum) :
    convertEndianness "LITTLE" v =
      some (jsToInt32 v % 256 * 256 + jsToInt32 v / 256 % 256) := by
  unfold convertEndianness
  rw [if_pos (by decide)]

theorem jsToInt32_of_uint16 (x : Int) (h0 : 0 ≤ x) (h1 : x ≤ 65535) :
    jsToInt32 (some x) = x := by
  have h : jsToInt32 (some x) =
      if x % 4294967296 < 2147483648 then x % 4294967296
      else x % 4294967296 - 4294967296 := rfl
  rw [h]
  split <;> omega

/-- C4: the endianness transform is an involution on [0, 65535] in both
modes: BIG is the identity and LITTLE swaps the two bytes, so applying the
transform twice returns the original value. -/
theorem c4_convertEndianness_involution (mode : String)
    (hm : mode = "BIG" ∨ mode = "LITTLE") (x : Int) (h0 : 0 ≤ x) (h1 : x ≤ 65535) :
    convertEndianness mode (convertEndianness mode (some x)) = some x := by
  rcases hm with h | h <;> subst h
  · rw [convertEndianness_big_eq, convertEndianness_big_eq]
  · rw [convertEndianness_little_eq (some x), jsToInt32_of_uint16 x h0 h1,
      convertEndianness_little_eq,
      jsToInt32_of_uint16 (x % 256 * 256 + x / 256 % 256) (by omega) (by omega)]
    congr 1
    have h2 : x / 256 % 256 = x / 256 := by omega
    rw [h2]
    have h3 : (x % 256 * 256 + x / 256) % 256 = x / 256 := by omega
    have h4 : (x % 256 * 256 + x / 256) / 256 = x % 256 := by omega
    rw [h3, h4]
    omega

theorem c4_convertEndianness_involution_witness :
    convertEndianness "LITTLE" (convertEndianness "LITTLE" (some 4660)) = some 4660 :=
  c4_convertEndianness_involution "LITTLE" (Or.inr rfl) 4660 (by decide) (by decide)

/-- C8 counterexample: in BIG mode the transform is the identity and does
not mask, so the non-negative input 65536 comes out as 65536, outside
[0, 65535]; the claim fails as stated for arbitrary non-negative inputs. -/
theorem c8_masking_counterexample :
    convertEndianness "BIG" (some 65536) = some 65536 ∧
    ¬((65536 : Int) ≤ 65535) :=
  ⟨convertEndianness_big_eq _, by decide⟩

/-- C8 amended: for every input already in the register range [0, 65535],
the value produced by the endianness transform lies in [0, 65535] in both
modes (LITTLE rebuilds the value from two bytes, BIG is the identity). -/
theorem c8_masked_after_transform (mode : String)
    (hm : mode = "BIG" ∨ mode = "LITTLE") (x : Int) (h0 : 0 ≤ x) (h1 : x ≤ 65535) :
    isUint16 (convertEndianness mode (some x)) = true := by
  rcases hm with h | h <;> subst h
  · rw [convertEndianness_big_eq]
    simp only [isUint16, Bool.and_eq_true, decide_eq_true_eq]
    exact ⟨h0, h1⟩
  · rw [convertEndianness_little_eq, jsToInt32_of_uint16 x h0 h1]
    simp only [isUint16, Bool.and_eq_true, decide_eq_true_eq]
    omega

theorem c8_masked_after_transform_witness :
    isUint16 (convertEndianness "LITTLE" (some 65535)) = true :=
  c8_masked_after_transform "LITTLE" (Or.inr rfl) 65535 (by decide) (by decide)

/-- C7: `parseValue` applies its rules in order — a lowercase `b` head
selects base 2 on the remainder (an uppercase `B` does not and falls through
to base 10, yielding NaN), a "0x"/"0X" head selects base 16, anything else
base 10; and the spec's example values hold. -/
theorem c7_parse_rule_order :
    (∀ s : String, jsStartsWith s "b" = true →
      parseValue s = jsParseInt 2 (String.mk (s.data.drop 1))) ∧
    (∀ s : String, jsStartsWith s "b" = false →
      (jsStartsWith s "0x" || jsStartsWith s "0X") = true →
      parseValue s = jsParseInt 16 s) ∧
    (∀ s : String, jsStartsWith s "b" = false →
      (jsStartsWith s "0x" || jsStartsWith s "0X") = false →
      parseValue s = jsParseInt 10 s) ∧
    parseValue "b1010" = some 10 ∧ parseValue "0xFF" = some 255 ∧
    parseValue "42" = some 42 ∧ parseValue "B1010" = none := by
  refine ⟨?_, ?_, ?_, by decide, by decide, by decide, by decide⟩
  · intro s h
    simp [parseValue, h]
  · intro s h1 h2
    simp [parseValue, h1, h2]
  · intro s h1 h2
    simp [parseValue, h1, h2]

theorem c7_parse_rule_order_witness :
    jsStartsWith "b1010" "b" = true ∧
    parseValue "b1010" = jsParseInt 2 (String.mk ("b1010".data.drop 1)) :=
  ⟨by decide, c7_parse_rule_order.1 "b1010" (by decide)⟩

theorem takeDigitsAux_append (base : Nat) (suff : List Char)
    (hsuff : ∀ c, suff.head? = some c → digitVal base c = none) :
    ∀ (pre : List Char), (∀ c ∈ pre, (digitVal base c).isSome) →
      ∀ acc, takeDigitsAux base acc (pre ++ suff) = takeDigitsAux base acc pre := by
  intro pre
  induction pre with
  | nil =>
    intro _ acc
    cases suff with
    | nil => rfl
    | cons c r =>
      have hc : digitVal base c = none := hsuff c rfl
      simp [takeDigitsAux, hc]
  | cons d rest ih =>
    intro hpre acc
    have hd : (digitVal base d).isSome := hpre d (by simp)
    obtain ⟨v, hv⟩ := Option.isSome_iff_exists.mp hd
    simp only [List.cons_append, takeDigitsAux, hv]
    exact ih (fun c hc => hpre c (by simp [hc])) _

theorem takeDigitsAux_some_ne_none (base : Nat) (l : List Char) :
    ∀ x, takeDigitsAux base (some x) l ≠ none := by
  induction l with
  | nil => intro x h; exact Option.noConfusion h
  | cons c r ih =>
    intro x
    simp only [takeDigitsAux]
    cases h : digitVal base c with
    | none => exact fun h2 => Option.noConfusion h2
    | some d => exact ih _

/-- C10: the parser ignores trailing non-numeric characters — appending a
suffix that does not start with a valid digit never changes the parsed
value of a non-empty digit run, a parse is NaN exactly when the very first
character (after sign/prefix handling) is not a valid digit in the chosen
base, and the implicit examples hold. -/
theorem c10_trailing_garbage_ignored :
    (∀ (base : Nat) (pre suff : List Char), pre ≠ [] →
      (∀ c ∈ pre, (digitVal base c).isSome) →
      (∀ c, suff.head? = some c → digitVal base c = none) →
      parseDigits base (pre ++ suff) = parseDigits base pre) ∧
    (∀ (base : Nat) (cs : List Char),
      parseDigits base cs = none ↔ ∀ c, cs.head? = some c → digitVal base c = none) ∧
    parseValue "42abc" = some 42 ∧ parseValue "0xFFzz" = some 255 ∧
    parseValue "b10x" = some 2 ∧ parseValue "zz" = none := by
  refine ⟨?_, ?_, by decide, by decide, by decide, by decide⟩
  · intro base pre suff _ hpre hsuff
    exact takeDigitsAux_append base suff hsuff pre hpre none
  · intro base cs
    cases cs with
    | nil => simp [parseDigits, takeDigitsAux]
    | cons c r =>
      simp only [parseDigits, takeDigitsAux]
      cases h : digitVal base c with
      | none =>
        simp only [h]
        constructor
        · intro _ c2 hc2
          cases hc2
          exact h
        · intro _
          trivial
      | some d =>
        constructor
        · intro habs
          exact absurd habs (takeDigitsAux_some_ne_none base r _)
        · intro hr
          have := hr c rfl
          rw [this] at h
          exact Option.noConfusion h

theorem c10_trailing_garbage_ignored_witness :
    parseDigits 10 (['4', '2'] ++ ['a', 'b', 'c']) = parseDigits 10 ['4', '2'] :=
  c10_trailing_garbage_ignored.1 10 ['4', '2'] ['a', 'b', 'c'] (by decide)
    (by decide) (by intro c hc; injection hc with h; subst h; decide)

/-- C3 counterexample: only the queried address is normalized, never the
table's own keys, so a name bound under the non-canonical key "0X0004"
is not found when the canonical address "0x0004" is looked up — the
lookup returns "" instead of the bound name. -/
theorem c3_table_key_casing_counterexample :
    getRegisterName ⟨none, none, some [("0X0004", "CALIBRATE_SENSOR")], none⟩
      "0x03" "0x0004" = "" ∧
    ("CALIBRATE_SENSOR" : String) ≠ "" := by
  refine ⟨by decide, by decide⟩

/-- C3 amended: for every register class and every address, name resolution
normalizes the queried address to canonical form (uppercase hex digits,
lowercase "0x") before lookup, so any casing of the query finds a name
stored under the canonical key; but table keys are used verbatim, so only
canonically-cased table keys can match. An entry absent from an enabled
table and a disabled per-class table both yield the empty string, never an
error. -/
theorem c3_query_normalized_lookup (t : List (String × String)) (nm key s : String)
    (hs : normalizeAddress s = key) :
    (getRegisterName ⟨some ((key, nm) :: t), none, none, none⟩ "0x01" s = nm ∧
     getRegisterName ⟨none, some ((key, nm) :: t), none, none⟩ "0x02" s = nm ∧
     getRegisterName ⟨none, none, some ((key, nm) :: t), none⟩ "0x03" s = nm ∧
     getRegisterName ⟨none, none, none, some ((key, nm) :: t)⟩ "0x04" s = nm) ∧
    (∀ t2 : List (String × String), t2.lookup key = none →
      getRegisterName ⟨some t2, some t2, some t2, some t2⟩ "0x01" s = "" ∧
      getRegisterName ⟨some t2, some t2, some t2, some t2⟩ "0x02" s = "" ∧
      getRegisterName ⟨some t2, some t2, some t2, some t2⟩ "0x03" s = "" ∧
      getRegisterName ⟨some t2, some t2, some t2, some t2⟩ "0x04" s = "") ∧
    (∀ fc a : String, getRegisterName emptyTables fc a = "") := by
  refine ⟨⟨?_, ?_, ?_, ?_⟩, ?_, ?_⟩
  · simp [getRegisterName, hs, lookupName, List.lookup]
  · simp [getRegisterName, hs, lookupName, List.lookup]
  · simp [getRegisterName, hs, lookupName, List.lookup]
  · simp [getRegisterName, hs, lookupName, List.lookup]
  · intro t2 h
    refine ⟨?_, ?_, ?_, ?_⟩ <;> simp [getRegisterName, hs, lookupName, h]
  · intro fc a
    unfold getRegisterName emptyTables
    split <;> rfl

theorem c3_query_normalized_lookup_witness :
    getRegisterName ⟨none, none, some [("0x0004", "CALIBRATE_SENSOR")], none⟩
      "0x03" "0X0004" = "CALIBRATE_SENSOR" :=
  ((c3_query_normalized_lookup [] "CALIBRATE_SENSOR" "0x0004" "0X0004"
    (by decide)).1).2.2.1

/-- C9: a transport failure during a read surfaces as `TransportError`
carrying the underlying message, for all four read function codes, with no
row output at all (the error result carries no rows). -/
theorem c9_transport_error_no_rows (tables : NameTables) (mode : String)
    (dq : Nat) (msg a q : String) :
    handleRead tables mode dq (errorTransport msg) "0x01" a q =
      .error (.transportError msg) ∧
    handleRead tables mode dq (errorTransport msg) "0x02" a q =
      .error (.transportError msg) ∧
    handleRead tables mode dq (errorTransport msg) "0x03" a q =
      .error (.transportError msg) ∧
    handleRead tables mode dq (errorTransport msg) "0x04" a q =
      .error (.transportError msg) := by
  refine ⟨?_, ?_, ?_, ?_⟩ <;> simp [handleRead, errorTransport]

/-- C5: each of the six supported function codes (as the main loop
normalizes them, lowercased) maps 1:1 to its register class and direction —
the four read codes reach exactly their read primitive (witnessed by a
probing transport), the two write codes issue exactly their write call —
while any other function code yields `UnsupportedOperation` at both the
read and the write entry point. -/
theorem c5_function_code_dispatch :
    mainDispatch "0x01" = .read "0x01" ∧ mainDispatch "0x02" = .read "0x02" ∧
    mainDispatch "0x03" = .read "0x03" ∧ mainDispatch "0x04" = .read "0x04" ∧
    mainDispatch "0x0F" = .write "0x0f" ∧ mainDispatch "0x10" = .write "0x10" ∧
    (∀ tables mode dq a q,
      handleRead tables mode dq probeTransport "0x01" a q =
        .error (.transportError "readCoils") ∧
      handleRead tables mode dq probeTransport "0x02" a q =
        .error (.transportError "readDiscreteInputs") ∧
      handleRead tables mode dq probeTransport "0x03" a q =
        .error (.transportError "readHoldingRegisters") ∧
      handleRead tables mode dq probeTransport "0x04" a q =
        .error (.transportError "readInputRegisters")) ∧
    (∀ mode a v, handleWrite mode "0x0f" [a, v] =
        .ok (.writeCoils (parseValue a) [parseValue v != some 0])) ∧
    (∀ mode a v, handleWrite mode "0x10" [a, v] =
        .ok (.writeRegisters (parseValue a) [convertEndianness mode (parseValue v)])) ∧
    (∀ s, s ≠ "0x01" → s ≠ "0x02" → s ≠ "0x03" → s ≠ "0x04" →
      ∀ tables mode dq tp a q,
        handleRead tables mode dq tp s a q = .error .unsupportedOperation) ∧
    (∀ s, s ≠ "0x0f" → s ≠ "0x10" → ∀ mode parts, 2 ≤ parts.length →
      handleWrite mode s parts = .error .unsupportedOperation) := by
  refine ⟨by decide, by decide, by decide, by decide, by decide, by decide,
    ?_, ?_, ?_, ?_, ?_⟩
  · intro tables mode dq a q
    refine ⟨?_, ?_, ?_, ?_⟩ <;> simp [handleRead, probeTransport]
  · intro mode a v
    simp [handleWrite]
  · intro mode a v
    simp [handleWrite]
  · intro s h1 h2 h3 h4 tables mode dq tp a q
    unfold handleRead
    split <;> simp_all
  · intro s h1 h2 mode parts hlen
    simp [handleWrite, h1, h2, show ¬(parts.length < 2) from by omega]

theorem c5_function_code_dispatch_witness :
    handleRead emptyTables "BIG" 1 probeTransport "0x05" "0" "1" =
      .error .unsupportedOperation ∧
    handleWrite "BIG" "0x05" ["10", "1"] = .error .unsupportedOperation :=
  ⟨c5_function_code_dispatch.2.2.2.2.2.2.2.2.2.1 "0x05" (by decide) (by decide)
      (by decide) (by decide) emptyTables "BIG" 1 probeTransport "0" "1",
    c5_function_code_dispatch.2.2.2.2.2.2.2.2.2.2 "0x05" (by decide) (by decide)
      "BIG" ["10", "1"] (by decide)⟩

theorem length_mapWithIndexFrom (f : Nat → α → β) :
    ∀ (i : Nat) (l : List α), (mapWithIndexFrom f i l).length = l.length := by
  intro i l
  induction l generalizing i with
  | nil => rfl
  | cons x xs ih => simp [mapWithIndexFrom, ih]

theorem jsSliceTo_natCast (l : List α) (q : Nat) :
    jsSliceTo l (some (q : Int)) = l.take q := by
  show (if (q : Int) < 0 then l.take (((l.length : Int) + q).toNat)
    else l.take ((q : Int)).toNat) = l.take q
  rw [if_neg (by omega)]
  norm_num

/-- C1 counterexample: a holding-register read that requests quantity 1 but
whose transport returns two values produces two rows — the register read
path maps the whole returned array and never truncates to `quantity`. -/
theorem c1_register_read_not_truncated_counterexample :
    parseValue "1" = some 1 ∧
    rowCount (handleRead emptyTables "BIG" 1 (constTransport [true, false] [1, 2])
      "0x03" "0" "1") = 2 := by
  refine ⟨by decide, by decide⟩

/-- C1 amended: only the coil / discrete-input read paths truncate the
returned collection to `quantity` entries (via `slice(0, quantity)`); the
holding / input register read paths emit one row per returned value, with
no truncation. -/
theorem c1_truncation_amended (tables : NameTables) (mode : String) (dq : Nat)
    (addrStr qtyStr : String) (q : Nat) (bools : List Bool) (regs : List Nat)
    (hq : parseValue qtyStr = some (q : Int)) (hne : qtyStr ≠ "")
    (hlen : q ≤ bools.length) :
    rowCount (handleRead tables mode dq (constTransport bools regs) "0x01" addrStr qtyStr) = q ∧
    rowCount (handleRead tables mode dq (constTransport bools regs) "0x02" addrStr qtyStr) = q ∧
    rowCount (handleRead tables mode dq (constTransport bools regs) "0x03" addrStr qtyStr) =
      regs.length ∧
    rowCount (handleRead tables mode dq (constTransport bools regs) "0x04" addrStr qtyStr) =
      regs.length := by
  refine ⟨?_, ?_, ?_, ?_⟩
  · simp only [handleRead, if_neg hne, hq, constTransport, rowCount, buildBoolRows]
    rw [jsSliceTo_natCast, length_mapWithIndexFrom, List.length_take]
    omega
  · simp only [handleRead, if_neg hne, hq, constTransport, rowCount, buildBoolRows]
    rw [jsSliceTo_natCast, length_mapWithIndexFrom, List.length_take]
    omega
  · simp only [handleRead, if_neg hne, hq, constTransport, rowCount, buildRegRows]
    rw [length_mapWithIndexFrom]
  · simp only [handleRead, if_neg hne, hq, constTransport, rowCount, buildRegRows]
    rw [length_mapWithIndexFrom]

theorem c1_truncation_amended_witness :
    rowCount (handleRead emptyTables "BIG" 1 (constTransport [true, false] [1, 2])
      "0x01" "0" "1") = 1 ∧
    rowCount (handleRead emptyTables "BIG" 1 (constTransport [true, false] [1, 2])
      "0x02" "0" "1") = 1 ∧
    rowCount (handleRead emptyTables "BIG" 1 (constTransport [true, false] [1, 2])
      "0x03" "0" "1") = 2 ∧
    rowCount (handleRead emptyTables "BIG" 1 (constTransport [true, false] [1, 2])
      "0x04" "0" "1") = 2 :=
  c1_truncation_amended emptyTables "BIG" 1 "0" "1" 1 [true, false] [1, 2]
    (by decide) (by decide) (by decide)

/-- C2 counterexample: `parseValue "zz"` is NaN, yet the write entry point
reports no `InvalidInput`: the coil path transmits the failed parse as the
coerced boolean `true`, and the register path transmits it to
`writeRegisters` (as NaN in BIG mode). -/
theorem c2_nan_propagates_counterexample :
    parseValue "zz" = none ∧
    handleWrite "BIG" "0x0f" ["10", "zz"] = .ok (.writeCoils (some 10) [true]) ∧
    handleWrite "BIG" "0x10" ["10", "zz"] = .ok (.writeRegisters (some 10) [none]) := by
  refine ⟨by decide, rfl, rfl⟩

/-- C2 amended: parsing malformed numeric text does yield Not-a-Number, but
the entry points never check for it: a failed coil-value parse is
transmitted as the coerced boolean `true` (NaN !== 0), and a failed
register-value parse is transmitted to `writeRegisters` — as NaN in BIG
mode and as 0 after the LITTLE transform; no `InvalidInput` error is
raised for a parse failure. -/
theorem c2_nan_not_detected (mode : String) (addrTok valTok : String)
    (hv : parseValue valTok = none) :
    handleWrite mode "0x0f" [addrTok, valTok] =
      .ok (.writeCoils (parseValue addrTok) [true]) ∧
    handleWrite "BIG" "0x10" [addrTok, valTok] =
      .ok (.writeRegisters (parseValue addrTok) [none]) ∧
    handleWrite "LITTLE" "0x10" [addrTok, valTok] =
      .ok (.writeRegisters (parseValue addrTok) [some 0]) := by
  have hL : convertEndianness "LITTLE" none = some 0 := by
    rw [convertEndianness_little_eq]
    rfl
  refine ⟨?_, ?_, ?_⟩ <;> simp [handleWrite, hv, convertEndianness_big_eq, hL]

theorem c2_nan_not_detected_witness :
    handleWrite "BIG" "0x0f" ["10", "zz"] =
      .ok (.writeCoils (parseValue "10") [true]) ∧
    handleWrite "BIG" "0x10" ["10", "zz"] =
      .ok (.writeRegisters (parseValue "10") [none]) ∧
    handleWrite "LITTLE" "0x10" ["10", "zz"] =
      .ok (.writeRegisters (parseValue "10") [some 0]) :=
  c2_nan_not_detected "BIG" "10" "zz" (by decide)

theorem getElem?_mapWithIndexFrom (f : Nat → α → β) :
    ∀ (l : List α) (i j : Nat), (mapWithIndexFrom f i l)[j]? = (l[j]?).map (f (i + j)) := by
  intro l
  induction l with
  | nil => intro i j; simp [mapWithIndexFrom]
  | cons x xs ih =>
    intro i j
    cases j with
    | zero => simp [mapWithIndexFrom]
    | succ j2 =>
      have h : i + (j2 + 1) = (i + 1) + j2 := by omega
      simp only [mapWithIndexFrom, List.getElem?_cons_succ, ih (i + 1) j2, h]

theorem intCast_toString (n : Nat) : toString ((n : Int)) = toString n := rfl

/-- C6: in a register-class read (holding registers with prefix "HR", input
registers with prefix "IR") the row at index i carries the id
prefix ++ (startAddress + i + 1), the 4-digit zero-padded uppercase hex of
startAddress + i as its address, and the endianness-transformed raw value —
in BIG mode the transform is the identity, so the displayed decimal equals
the raw value; reading 4 holding registers from address 4 with raw values
[0, 65535, 65535, 255] in BIG mode reproduces the README table: ids
HR5..HR8, addresses 0x0004..0x0007, values unchanged. -/
theorem c6_register_row_shape :
    (∀ (tables : NameTables) (mode : String) (a : Nat) (data : List Nat) (i : Nat)
        (hi : i < data.length),
      (buildRegRows tables mode "0x03" (some (a : Int)) data)[i]? =
        some { reg := "HR" ++ toString (a + i + 1),
               addr := toHex (some ((a : Int) + (i : Int))),
               name := getRegisterName tables "0x03" (toHex (some ((a : Int) + (i : Int)))),
               decimal := convertEndianness mode (some ((data.get ⟨i, hi⟩ : Nat) : Int)),
               hex := toHex (convertEndianness mode (some ((data.get ⟨i, hi⟩ : Nat) : Int))),
               binary := toBinaryWithSpaces
                 (convertEndianness mode (some ((data.get ⟨i, hi⟩ : Nat) : Int))) }) ∧
    (∀ (tables : NameTables) (mode : String) (a : Nat) (data : List Nat) (i : Nat)
        (hi : i < data.length),
      (buildRegRows tables mode "0x04" (some (a : Int)) data)[i]? =
        some { reg := "IR" ++ toString (a + i + 1),
               addr := toHex (some ((a : Int) + (i : Int))),
               name := getRegisterName tables "0x04" (toHex (some ((a : Int) + (i : Int)))),
               decimal := convertEndianness mode (some ((data.get ⟨i, hi⟩ : Nat) : Int)),
               hex := toHex (convertEndianness mode (some ((data.get ⟨i, hi⟩ : Nat) : Int))),
               binary := toBinaryWithSpaces
                 (convertEndianness mode (some ((data.get ⟨i, hi⟩ : Nat) : Int))) }) ∧
    (∀ x : Int, convertEndianness "BIG" (some x) = some x) ∧
    handleRead emptyTables "BIG" 1 (constTransport [] [0, 65535, 65535, 255]) "0x03" "4" "4" =
      .ok (.regRows
        [{ reg := "HR5", addr := "0x0004", name := "", decimal := some 0,
           hex := "0x0000", binary := "0000 0000 0000 0000 " },
         { reg := "HR6", addr := "0x0005", name := "", decimal := some 65535,
           hex := "0xFFFF", binary := "1111 1111 1111 1111 " },
         { reg := "HR7", addr := "0x0006", name := "", decimal := some 65535,
           hex := "0xFFFF", binary := "1111 1111 1111 1111 " },
         { reg := "HR8", addr := "0x0007", name := "", decimal := some 255,
           hex := "0x00FF", binary := "0000 0000 1111 1111 " }]) := by
  refine ⟨?_, ?_, fun x => convertEndianness_big_eq (some x), rfl⟩
  · intro tables mode a data i hi
    unfold buildRegRows
    rw [getElem?_mapWithIndexFrom, List.getElem?_eq_getElem hi]
    simp only [Option.map_some', jsAdd, jsNumToString, Nat.zero_add, List.get_eq_getElem]
    congr 2
  · intro tables mode a data i hi
    unfold buildRegRows
    rw [getElem?_mapWithIndexFrom, List.getElem?_eq_getElem hi]
    simp only [Option.map_some', jsAdd, jsNumToString, Nat.zero_add, List.get_eq_getElem]
    congr 2

theorem c6_register_row_shape_witness :
    (buildRegRows emptyTables "LITTLE" "0x04" (some ((4 : Nat) : Int)) [7])[0]? =
      some { reg := "IR" ++ toString (4 + 0 + 1),
             addr := toHex (some ((4 : Int) + (0 : Int))),
             name := getRegisterName emptyTables "0x04" (toHex (some ((4 : Int) + (0 : Int)))),
             decimal := convertEndianness "LITTLE" (some ((7 : Nat) : Int)),
             hex := toHex (convertEndianness "LITTLE" (some ((7 : Nat) : Int))),
             binary := toBinaryWithSpaces (convertEndianness "LITTLE" (some ((7 : Nat) : Int))) } :=
  c6_register_row_shape.2.1 emptyTables "LITTLE" 4 [7] 0 (by decide)

end PMU

